import Mathlib

/-!
Verification development for the plane-crash scraper (`src/scraper.py`).

The Python source is shallowly embedded below.  Strings are modelled as Lean
`String`s / `List Char` (ASCII fragment: Python's Unicode-aware `\d`, `\s`,
`.upper()` agree with the ASCII versions on every input the claims mention).
Floating-point coordinates are never computed with, only passed through, so
they are modelled as `Int` placeholders supplied by an oracle.  Fallible
Python code (bare `int(...)` calls that may raise `ValueError`) is modelled
with `Except String`.
-/

set_option autoImplicit false

namespace Scraper

/-! ## Configuration constants (scraper.py lines 8-16) -/

def START_YEAR : Nat := 2000
def END_YEAR : Nat := 2025
def DELAY : Nat := 1

/-- Python `range(START_YEAR, END_YEAR + 1)`. -/
def YEARS : List Nat := List.range' START_YEAR (END_YEAR + 1 - START_YEAR)

/-- Python `BASE_YEAR_URL.format(year=year, page=page)`. -/
def urlFor (year page : Nat) : String :=
  "https://www.planecrashinfo.com/" ++ toString year ++ "/" ++ toString year
    ++ "-" ++ toString page ++ ".htm"

/-- The `FIELDS` list of recognized raw labels (scraper.py lines 15-16). -/
def FIELDS : List String :=
  ["Date", "Time", "Location", "Operator", "Flight #", "Route",
   "AC Type", "Registration", "cn / ln", "Aboard", "Fatalities", "Ground", "Summary"]

/-! ## Character and string helpers mirroring Python primitives -/

/-- Python `\s` / `str.strip()` whitespace, ASCII fragment. -/
def isPyWs (c : Char) : Bool :=
  c = ' ' ∨ c = '\t' ∨ c = '\n' ∨ c = '\r' ∨ c = '\x0b' ∨ c = '\x0c'

/-- Python `str.strip()`: drop whitespace from both ends. -/
def pyStrip (l : List Char) : List Char :=
  ((l.dropWhile isPyWs).reverse.dropWhile isPyWs).reverse

/-- Python `str.strip()` on a `String`. -/
def pyStripS (s : String) : String :=
  String.mk (pyStrip s.data)

/-- Python `str.upper()`, ASCII fragment. -/
def asciiUpper (c : Char) : Char :=
  if 'a' ≤ c ∧ c ≤ 'z' then Char.ofNat (c.toNat - 32) else c

/-- Python `str.lower()`, ASCII fragment (used by case-insensitive regexes). -/
def asciiLower (c : Char) : Char :=
  if 'A' ≤ c ∧ c ≤ 'Z' then Char.ofNat (c.toNat + 32) else c

/-- Numeric value of a decimal digit character. -/
def digitVal (c : Char) : Nat := c.toNat - 48

/-- Value of a digit string, as Python `int` computes it (`int("007") = 7`). -/
def natOfDigits (l : List Char) : Nat :=
  l.foldl (fun a c => 10 * a + digitVal c) 0

/-! ## `normalize_time` (scraper.py lines 56-83)

`datetime.strptime` patterns are embedded with Python's `_strptime` regexes:
`%I` is `1[0-2]|0[1-9]|[1-9]`, `%H` is `2[0-3]|[0-1]\d|\d`, `%M` is
`[0-5]\d|\d`, a literal space matches `\s+`, `%p` matches AM/PM
case-insensitively, and the whole input must be consumed.  Regex alternation
is modelled by candidate lists tried in source order with backtracking. -/

/-- First candidate for which the continuation succeeds (regex backtracking). -/
def firstSome {α β : Type} (f : α → Option β) : List α → Option β
  | [] => none
  | a :: as =>
    match f a with
    | some b => some b
    | none => firstSome f as

/-- Candidates (value, rest) for `%I` = `1[0-2]|0[1-9]|[1-9]`, in regex order. -/
def hourICands : List Char → List (Nat × List Char)
  | [] => []
  | c :: rest =>
    (match c, rest with
     | '1', c2 :: r2 => if '0' ≤ c2 ∧ c2 ≤ '2' then [(10 + digitVal c2, r2)] else []
     | _, _ => []) ++
    (match c, rest with
     | '0', c2 :: r2 => if '1' ≤ c2 ∧ c2 ≤ '9' then [(digitVal c2, r2)] else []
     | _, _ => []) ++
    (if '1' ≤ c ∧ c ≤ '9' then [(digitVal c, rest)] else [])

/-- Candidates for `%H` = `2[0-3]|[0-1]\d|\d`, in regex order. -/
def hourHCands : List Char → List (Nat × List Char)
  | [] => []
  | c :: rest =>
    (match c, rest with
     | '2', c2 :: r2 => if '0' ≤ c2 ∧ c2 ≤ '3' then [(20 + digitVal c2, r2)] else []
     | _, _ => []) ++
    (match c, rest with
     | c1, c2 :: r2 =>
       if (c1 = '0' ∨ c1 = '1') ∧ c2.isDigit then [(10 * digitVal c1 + digitVal c2, r2)] else []
     | _, _ => []) ++
    (if c.isDigit then [(digitVal c, rest)] else [])

/-- Candidates for `%M` = `[0-5]\d|\d`, in regex order. -/
def minCands : List Char → List (Nat × List Char)
  | [] => []
  | c :: rest =>
    (match c, rest with
     | c1, c2 :: r2 =>
       if ('0' ≤ c1 ∧ c1 ≤ '5') ∧ c2.isDigit then [(10 * digitVal c1 + digitVal c2, r2)] else []
     | _, _ => []) ++
    (if c.isDigit then [(digitVal c, rest)] else [])

/-- The `strptime` hour adjustment for `%I` with `%p`:
`PM` adds 12 unless the hour is 12; `AM` maps hour 12 to 0. -/
def meridiemAdjust (h : Nat) (isPM : Bool) : Nat :=
  if isPM then (if h = 12 then 12 else h + 12)
  else (if h = 12 then 0 else h)

/-- After the minute of `"%I:%M %p"`: `\s+` then AM/PM (case-insensitive),
then end of input.  Returns the meridiem flag. -/
def ampmTail : List Char → Option Bool
  | c :: rest =>
    if isPyWs c then
      match rest.dropWhile isPyWs with
      | [p1, p2] =>
        if asciiLower p2 = 'm' then
          if asciiLower p1 = 'a' then some false
          else if asciiLower p1 = 'p' then some true
          else none
        else none
      | _ => none
    else none
  | [] => none

/-- Python `datetime.strptime(s, "%I:%M %p")`, returning the 24-hour (hour, minute). -/
def strptime12 (l : List Char) : Option (Nat × Nat) :=
  firstSome (fun hr =>
    match hr.2 with
    | ':' :: rest2 =>
      firstSome (fun mr =>
        match ampmTail mr.2 with
        | some pm => some (meridiemAdjust hr.1 pm, mr.1)
        | none => none) (minCands rest2)
    | _ => none) (hourICands l)

/-- Python `datetime.strptime(s, "%H:%M")`, returning (hour, minute). -/
def strptime24 (l : List Char) : Option (Nat × Nat) :=
  firstSome (fun hr =>
    match hr.2 with
    | ':' :: rest2 =>
      firstSome (fun mr =>
        match mr.2 with
        | [] => some (hr.1, mr.1)
        | _ :: _ => none) (minCands rest2)
    | _ => none) (hourHCands l)

/-- Two-digit zero-padded decimal, as `strftime("%H")` / `strftime("%M")`. -/
def two (n : Nat) : String :=
  if n < 10 then "0" ++ toString n else toString n

/-- Python `dt.strftime("%H:%M")`. -/
def fmtHM (h m : Nat) : String := two h ++ ":" ++ two m

/-- Function `normalize_time` (scraper.py lines 56-83).  `none` models Python `None`.
The function never raises: every parse failure is caught and mapped to `None`. -/
def normalize_time (s : String) : Option String :=
  let stripped := pyStrip s.data
  if stripped = ['?'] ∨ stripped = [] then none
  else
    let t := stripped.map asciiUpper
    if 3 ≤ t.length ∧ t.length ≤ 4 ∧ t.all Char.isDigit then
      let t4 := if t.length = 3 then '0' :: t else t
      some (String.mk (t4.take 2 ++ ':' :: t4.drop 2))
    else
      match strptime12 t with
      | some hm => some (fmtHM hm.1 hm.2)
      | none =>
        match strptime24 t with
        | some hm => some (fmtHM hm.1 hm.2)
        | none => none

/-! ## `parse_passengers_crew` (scraper.py lines 87-117)

`re.match(r"(\d+)", text)` is the maximal leading digit run;
`re.search(r"passengers:([\d?]+)", text)` scans left to right for the literal
marker followed by a nonempty maximal run of digits-or-question-marks.
The captured group is fed to Python `int` unless it is exactly `"?"`;
`int` raises `ValueError` on any group that is not all digits (e.g. `"??"`,
`"1?"`), modelled as `Except.error "ValueError"`. -/

/-- Drop `pfx` from the front of `l` if it is literally there. -/
def stripPfx : List Char → List Char → Option (List Char)
  | [], l => some l
  | _ :: _, [] => none
  | p :: ps, c :: cs => if c = p then stripPfx ps cs else none

/-- Python `re.search(marker ++ "([\d?]+)", l)`: first position where the literal
marker is followed by at least one digit-or-`'?'`; returns the maximal run. -/
def searchRun (marker : List Char) : List Char → Option (List Char)
  | [] => none
  | c :: rest =>
    match stripPfx marker (c :: rest) with
    | some after =>
      let run := after.takeWhile (fun x => x.isDigit || x = '?')
      if run.isEmpty then searchRun marker rest else some run
    | none => searchRun marker rest

/-- The Python body `grp = m.group(1); if grp == "?": None else int(grp)`.
`Except.error` models an uncaught `ValueError` from `int`. -/
def groupValue (run : List Char) : Except String (Option Nat) :=
  if run = ['?'] then Except.ok none
  else if run.all Char.isDigit then Except.ok (some (natOfDigits run))
  else Except.error "ValueError"

/-- An absent match leaves the field `None`; a match goes through `int`. -/
def fieldValue : Option (List Char) → Except String (Option Nat)
  | none => Except.ok none
  | some run => groupValue run

/-- Python `re.match(r"(\d+)", text)` then `int(...)`: the maximal leading digit
run, absent when the text does not begin with a digit. -/
def totalOf (text : String) : Option Nat :=
  match text.data.takeWhile Char.isDigit with
  | [] => none
  | ds => some (natOfDigits ds)

/-- Function `parse_passengers_crew` (scraper.py lines 87-117): returns
(total, passengers, crew), or `Except.error` when `int` raises. -/
def parse_passengers_crew (text : String) :
    Except String (Option Nat × Option Nat × Option Nat) :=
  match fieldValue (searchRun "passengers:".data text.data),
        fieldValue (searchRun "crew:".data text.data) with
  | Except.ok p, Except.ok c => Except.ok (totalOf text, p, c)
  | Except.error e, _ => Except.error e
  | _, Except.error e => Except.error e

/-! ## `clean_location` (scraper.py lines 22-30)

`re.sub(r"^(Near|Off|Over)\s+", "", location, flags=re.IGNORECASE)` removes
one leading directional prefix together with the greedy whitespace run after
it (the `^` anchor admits at most one match), and the result is `.strip()`ed. -/

/-- Case-insensitively drop the literal `pfx` (given lowercase) from `l`. -/
def dropCI : List Char → List Char → Option (List Char)
  | [], l => some l
  | _ :: _, [] => none
  | p :: ps, c :: cs => if asciiLower c = p then dropCI ps cs else none

/-- Match one alternative `pfx` of `(Near|Off|Over)\s+` at the start:
the prefix (case-insensitive) followed by at least one whitespace; the whole
match — prefix plus greedy whitespace run — is removed. -/
def afterDirPfx (pfx : List Char) (l : List Char) : Option (List Char) :=
  match dropCI pfx l with
  | some (c :: cs) => if isPyWs c then some (cs.dropWhile isPyWs) else none
  | _ => none

/-- Python `re.sub(r"^(Near|Off|Over)\s+", "", l, flags=re.IGNORECASE)`:
alternatives tried in source order; no match leaves `l` unchanged. -/
def subDirPfx (l : List Char) : List Char :=
  match afterDirPfx "near".data l with
  | some r => r
  | none =>
    match afterDirPfx "off".data l with
    | some r => r
    | none =>
      match afterDirPfx "over".data l with
      | some r => r
      | none => l

/-- Function `clean_location` (scraper.py lines 22-30).  An empty (falsy) string is
returned as-is; otherwise the directional prefix is removed and the result
is whitespace-stripped. -/
def clean_location (s : String) : String :=
  if s = "" then s
  else String.mk (pyStrip (subDirPfx s.data))

/-! ## Crash-record dictionaries

A Python dict from field name to a dynamically-typed value, modelled as an
association list; assignment overwrites in place, new keys append at the end
(Python 3.7+ insertion order). -/

/-- A value stored in a crash record.  `none` is Python `None`; `nat` an
`int` count; `coord` a latitude/longitude as produced by `geocode_location`
(floats are abstract oracle-supplied values, modelled as `Int`). -/
inductive Val where
  | none
  | str (s : String)
  | nat (n : Nat)
  | coord (c : Option Int)
deriving DecidableEq, Repr

def Dict : Type := List (String × Val)

instance : DecidableEq Dict := inferInstanceAs (DecidableEq (List (String × Val)))

instance : Repr Dict := inferInstanceAs (Repr (List (String × Val)))

/-- Python `d[k]` / `k in d`. -/
def dictGet : Dict → String → Option Val
  | [], _ => Option.none
  | (k', v') :: rest, k => if k' = k then some v' else dictGet rest k

/-- Python `d[k] = v`: overwrite in place, or append a new key. -/
def dictSet : Dict → String → Val → Dict
  | [], k, v => [(k, v)]
  | (k', v') :: rest, k, v =>
    if k' = k then (k', v) :: rest else (k', v') :: dictSet rest k v

/-- Python truthiness of a stored value (`if crash["Location"]:`). -/
def valTruthy : Val → Bool
  | Val.none => false
  | Val.str s => s ≠ ""
  | Val.nat n => n ≠ 0
  | Val.coord c => c.elim false (fun x => x ≠ 0)

def optNat : Option Nat → Val
  | Option.none => Val.none
  | some n => Val.nat n

def optStr : Option String → Val
  | Option.none => Val.none
  | some s => Val.str s

/-! ## Row extraction and per-page record building (scraper.py lines 139-168)

A fetched page's table is abstracted to its rows, each row to the list of its
cells' `get_text(strip=True)` texts (whitespace-stripped in the model via
`pyStripS`, matching `strip=True` for the text-only cells the claims use). -/

/-- Python `cols[0].get_text(strip=True).replace(":", "")`: every colon removed. -/
def rowLabel (c0 : String) : String :=
  String.mk ((pyStripS c0).data.filter (fun c => c ≠ ':'))

/-- One iteration of the row loop (scraper.py lines 141-164).
Rows without exactly two cells are skipped; `Except.error` models the
uncaught `ValueError` that `parse_passengers_crew` may raise. -/
def processRow (d : Dict) (row : List String) : Except String Dict :=
  match row with
  | [c0, c1] =>
    let label := rowLabel c0
    let value := pyStripS c1
    if label ∈ FIELDS then
      if label = "Time" then
        Except.ok (dictSet d "Time" (optStr (normalize_time value)))
      else if label = "Aboard" then
        match parse_passengers_crew value with
        | Except.error e => Except.error e
        | Except.ok (t, p, c) =>
          Except.ok (dictSet (dictSet (dictSet d
            "Aboard Total" (optNat t)) "Aboard Passengers" (optNat p)) "Aboard Crew" (optNat c))
      else if label = "Fatalities" then
        match parse_passengers_crew value with
        | Except.error e => Except.error e
        | Except.ok (t, p, c) =>
          Except.ok (dictSet (dictSet (dictSet d
            "Fatalities Total" (optNat t)) "Fatalities Passengers" (optNat p)) "Fatalities Crew" (optNat c))
      else if value = "?" then
        Except.ok (dictSet d label Val.none)
      else
        Except.ok (dictSet d label (Val.str value))
    else
      Except.ok d
  | _ => Except.ok d

/-- The whole row loop over one page's table rows, from `crash_data = {}`. -/
def processPage (rows : List (List String)) : Except String Dict :=
  rows.foldlM processRow []

/-! ## The fetch loop (scraper.py lines 121-172)

HTTP is an oracle `f year page`.  A response is either a non-200 status, a
200 page without the `border=0 cellpadding=3` table, or a 200 page whose
table has the given rows.  The loop's observable behaviour is captured as an
event trace: one `fetch` event per `requests.get` (recording whether a table
came back) and one `sleep DELAY` event per `time.sleep(DELAY)`.  The
`while True` loop is given fuel; the source loop itself only stops on a
failed fetch. -/

inductive FetchRes where
  | non200
  | okNoTable
  | okTable (rows : List (List String))

inductive Ev where
  | fetch (year page : Nat) (gotTable : Bool)
  | sleep (secs : Nat)
deriving DecidableEq, Repr

/-- Result of the fetch phase: appended records, request/sleep trace, and
whether an exception escaped (crashing the whole run). -/
structure FetchOut where
  records : List Dict
  trace : List Ev
  crashed : Bool
deriving DecidableEq, Repr

/-- The `while True` page loop for one year (scraper.py lines 122-172).
On non-200 or a missing table the loop breaks *before* the sleep; on a
processed page the record (with `Url` added, if nonempty) is appended and
`time.sleep(DELAY)` runs before the next fetch.  An exception while
processing rows aborts everything. -/
def scrapeYearLoop (f : Nat → Nat → FetchRes) (year : Nat) : Nat → Nat → FetchOut
  | 0, _ => ⟨[], [], false⟩
  | fuel + 1, page =>
    match f year page with
    | FetchRes.non200 => ⟨[], [Ev.fetch year page false], false⟩
    | FetchRes.okNoTable => ⟨[], [Ev.fetch year page false], false⟩
    | FetchRes.okTable rows =>
      match processPage rows with
      | Except.error _ => ⟨[], [Ev.fetch year page true], true⟩
      | Except.ok d =>
        let recs : List Dict :=
          if d = ([] : Dict) then [] else [dictSet d "Url" (Val.str (urlFor year page))]
        let rest := scrapeYearLoop f year fuel (page + 1)
        ⟨recs ++ rest.records, Ev.fetch year page true :: Ev.sleep DELAY :: rest.trace,
         rest.crashed⟩

/-- The `for year in range(...)` loop.  An uncaught exception stops the
remaining years as well. -/
def scrapeYears (f : Nat → Nat → FetchRes) (fuel : Nat) : List Nat → FetchOut
  | [] => ⟨[], [], false⟩
  | y :: ys =>
    let a := scrapeYearLoop f y fuel 1
    if a.crashed then a
    else
      let b := scrapeYears f fuel ys
      ⟨a.records ++ b.records, a.trace ++ b.trace, b.crashed⟩

/-! ## `geocode_location` and the geocoding pass (scraper.py lines 32-53, 174-179)

The Nominatim endpoint is an oracle on the *query* string (the cleaned
location).  Its three outcomes cover status-200-with-a-result, an empty
result list, and every failure (`raise_for_status`, network error, malformed
JSON, float conversion), the last two both cached as `(None, None)`. -/

inductive GeoRes where
  | found (lat lon : Int)
  | empty
  | fail

/-- The process-wide `location_cache`, plus the trace of external requests:
each entry records (raw cache key, query actually sent). -/
structure GeoSt where
  cache : List (String × (Option Int × Option Int))
  calls : List (String × String)
deriving DecidableEq, Repr

/-- Python `location in location_cache` / `location_cache[location]` lookup. -/
def lookupCache : List (String × (Option Int × Option Int)) → String →
    Option (Option Int × Option Int)
  | [], _ => none
  | (k', v) :: rest, k => if k' = k then some v else lookupCache rest k

/-- Function `geocode_location` (scraper.py lines 32-53).  The cache is consulted
before any request; every request's outcome is stored under the *raw* string
(`location_cache[location] = ...`), failures and empty results as
`(none, none)`.  The miss path always inserts a fresh key, so the insertion
is an append. -/
def geocode_location (g : String → GeoRes) (loc : String) (st : GeoSt) :
    (Option Int × Option Int) × GeoSt :=
  if loc = "" then ((none, none), st)
  else
    match lookupCache st.cache loc with
    | some p => (p, st)
    | none =>
      let q := clean_location loc
      let st' : GeoSt := ⟨st.cache, st.calls ++ [(loc, q)]⟩
      match g q with
      | GeoRes.found a o =>
        ((some a, some o), ⟨st'.cache ++ [(loc, (some a, some o))], st'.calls⟩)
      | GeoRes.empty =>
        ((none, none), ⟨st'.cache ++ [(loc, (none, none))], st'.calls⟩)
      | GeoRes.fail =>
        ((none, none), ⟨st'.cache ++ [(loc, (none, none))], st'.calls⟩)

/-- One iteration of the geocoding pass (scraper.py lines 174-179):
`if "Location" in crash and crash["Location"]:` then geocode and set
`Latitude`/`Longitude`.  In this program the `"Location"` field only ever
holds `Val.none` or `Val.str` (see `processRow`), and Python truthiness of a
string is nonemptiness. -/
def enrichRecord (g : String → GeoRes) (d : Dict) (st : GeoSt) : Dict × GeoSt :=
  match dictGet d "Location" with
  | some (Val.str s) =>
    if s = "" then (d, st)
    else
      let r := geocode_location g s st
      (dictSet (dictSet d "Latitude" (Val.coord r.1.1)) "Longitude" (Val.coord r.1.2), r.2)
  | _ => (d, st)

/-- The geocoding pass over all accumulated records, in scrape order. -/
def enrichAll (g : String → GeoRes) : List Dict → GeoSt → List Dict × GeoSt
  | [], st => ([], st)
  | d :: ds, st =>
    let r := enrichRecord g d st
    let rest := enrichAll g ds r.2
    (r.1 :: rest.1, rest.2)

/-! ## The whole run (`scrape()`) -/

/-- Observable outcome of one `scrape()` run: `fetched` is `all_crashes` as
the fetch phase left it (record state at append time), `final` the records at
CSV-writing time (`none` if an exception crashed the run first), `geo` the
geocoder state. -/
structure RunOut where
  fetched : List Dict
  trace : List Ev
  crashed : Bool
  final : Option (List Dict)
  geo : GeoSt
deriving DecidableEq, Repr

def runScrape (f : Nat → Nat → FetchRes) (g : String → GeoRes) (fuel : Nat) : RunOut :=
  let a := scrapeYears f fuel YEARS
  if a.crashed then ⟨a.records, a.trace, true, none, ⟨[], []⟩⟩
  else
    let e := enrichAll g a.records ⟨[], []⟩
    ⟨a.records, a.trace, false, some e.1, e.2⟩

/-! # Helper lemmas -/

instance {ε α : Type} [DecidableEq ε] [DecidableEq α] : DecidableEq (Except ε α) := by
  intro a b
  rcases a with e | v <;> rcases b with e' | v'
  · exact if h : e = e' then Decidable.isTrue (by rw [h]) else Decidable.isFalse (by simpa using h)
  · exact Decidable.isFalse (by simp)
  · exact Decidable.isFalse (by simp)
  · exact if h : v = v' then Decidable.isTrue (by rw [h]) else Decidable.isFalse (by simpa using h)

theorem parse_ok_elim {t : String} {r : Option Nat × Option Nat × Option Nat}
    (h : parse_passengers_crew t = Except.ok r) :
    r.1 = totalOf t ∧
    fieldValue (searchRun "passengers:".data t.data) = Except.ok r.2.1 ∧
    fieldValue (searchRun "crew:".data t.data) = Except.ok r.2.2 := by
  unfold parse_passengers_crew at h
  rcases h1 : fieldValue (searchRun "passengers:".data t.data) with e1 | v1 <;>
    rcases h2 : fieldValue (searchRun "crew:".data t.data) with e2 | v2 <;>
    rw [h1, h2] at h <;> simp only [] at h <;> cases h
  exact ⟨rfl, rfl, rfl⟩

/-! # Claims -/

/-- Claim C1. For every raw count-triple string, parsing extracts Total as the
leading decimal-integer prefix of the text (null if the text does not begin
with a digit), and extracts Passengers and Crew independently by pattern
search anywhere in the text for `passengers:` and `crew:` followed by digits
or `?`, each becoming null when marked `?` or absent; in particular
`7 (passengers:6 crew:1)` yields (7, 6, 1), `8 (passengers:? crew:?)` yields
(8, null, null), and `?` yields (null, null, null). -/
theorem claim_C1 :
    parse_passengers_crew "7 (passengers:6 crew:1)" = Except.ok (some 7, some 6, some 1)
  ∧ parse_passengers_crew "8 (passengers:? crew:?)" = Except.ok (some 8, none, none)
  ∧ parse_passengers_crew "?" = Except.ok (none, none, none)
  ∧ (∀ t r, parse_passengers_crew t = Except.ok r →
      ((∃ n, r.1 = some n) ↔ ∃ c cs, t.data = c :: cs ∧ c.isDigit = true))
  ∧ (∀ t r, parse_passengers_crew t = Except.ok r →
      searchRun "passengers:".data t.data = none → r.2.1 = none)
  ∧ (∀ t r, parse_passengers_crew t = Except.ok r →
      searchRun "passengers:".data t.data = some ['?'] → r.2.1 = none)
  ∧ (∀ t r ds, parse_passengers_crew t = Except.ok r →
      searchRun "passengers:".data t.data = some ds → ds.all Char.isDigit = true →
      r.2.1 = some (natOfDigits ds))
  ∧ (∀ t r, parse_passengers_crew t = Except.ok r →
      searchRun "crew:".data t.data = none → r.2.2 = none)
  ∧ (∀ t r, parse_passengers_crew t = Except.ok r →
      searchRun "crew:".data t.data = some ['?'] → r.2.2 = none)
  ∧ (∀ t r ds, parse_passengers_crew t = Except.ok r →
      searchRun "crew:".data t.data = some ds → ds.all Char.isDigit = true →
      r.2.2 = some (natOfDigits ds)) := by
  refine ⟨by rfl, by rfl, by rfl, ?_, ?_, ?_, ?_, ?_, ?_, ?_⟩
  · intro t r h
    obtain ⟨h1, -, -⟩ := parse_ok_elim h
    rw [h1]
    rcases ht : t.data with - | ⟨c, cs⟩
    · simp [totalOf, ht]
    · rcases hd : c.isDigit
      · simp [totalOf, ht, List.takeWhile_cons, hd]
      · simp [totalOf, ht, List.takeWhile_cons, hd]
  · intro t r h hs
    obtain ⟨-, h2, -⟩ := parse_ok_elim h
    rw [hs] at h2
    simpa [fieldValue] using h2.symm
  · intro t r h hs
    obtain ⟨-, h2, -⟩ := parse_ok_elim h
    rw [hs] at h2
    simpa [fieldValue, groupValue] using h2.symm
  · intro t r ds h hs hds
    obtain ⟨-, h2, -⟩ := parse_ok_elim h
    rw [hs] at h2
    have hne : ds ≠ ['?'] := by
      rintro rfl
      simp at hds
    simpa [fieldValue, groupValue, hne, hds] using h2.symm
  · intro t r h hs
    obtain ⟨-, -, h3⟩ := parse_ok_elim h
    rw [hs] at h3
    simpa [fieldValue] using h3.symm
  · intro t r h hs
    obtain ⟨-, -, h3⟩ := parse_ok_elim h
    rw [hs] at h3
    simpa [fieldValue, groupValue] using h3.symm
  · intro t r ds h hs hds
    obtain ⟨-, -, h3⟩ := parse_ok_elim h
    rw [hs] at h3
    have hne : ds ≠ ['?'] := by
      rintro rfl
      simp at hds
    simpa [fieldValue, groupValue, hne, hds] using h3.symm

theorem digitChar_isDigit : ∀ a : Fin 10, (Nat.digitChar a.val).isDigit = true := by
  decide

theorem digitChar_not_ws : ∀ a : Fin 10, isPyWs (Nat.digitChar a.val) = false := by
  decide

theorem digitChar_upper : ∀ a : Fin 10, asciiUpper (Nat.digitChar a.val) = Nat.digitChar a.val := by
  decide

theorem normalize_time_four (w x y z : Char)
    (hw : w.isDigit = true) (hx : x.isDigit = true)
    (hy : y.isDigit = true) (hz : z.isDigit = true)
    (nw : isPyWs w = false) (nz : isPyWs z = false)
    (uw : asciiUpper w = w) (ux : asciiUpper x = x)
    (uy : asciiUpper y = y) (uz : asciiUpper z = z) :
    normalize_time (String.mk [w, x, y, z]) = some (String.mk [w, x, ':', y, z]) := by
  simp [normalize_time, pyStrip, List.dropWhile_cons, nw, nz, uw, ux, uy, uz, hw, hx, hy, hz]

theorem normalize_time_three (w x y : Char)
    (hw : w.isDigit = true) (hx : x.isDigit = true) (hy : y.isDigit = true)
    (nw : isPyWs w = false) (ny : isPyWs y = false)
    (uw : asciiUpper w = w) (ux : asciiUpper x = x) (uy : asciiUpper y = y) :
    normalize_time (String.mk [w, x, y]) = some (String.mk ['0', w, ':', x, y]) := by
  simp [normalize_time, pyStrip, List.dropWhile_cons, nw, ny, uw, ux, uy, hw, hx, hy]

/-- Claim C2. Time normalization maps `?` and empty input to null; maps any
bare 3-4 digit string to a zero-padded HH:MM string without validating
hour/minute ranges (`1600` → `16:00`, `400` → `04:00`, `9999` → `99:99`);
otherwise attempts a 12-hour parse with meridiem indicator
(`4:00 PM` → `16:00`), on failure attempts a direct 24-hour HH:MM parse
(`04:00` → `04:00`), and on failure of both returns null
(`garbage` → null). -/
theorem claim_C2 :
    normalize_time "?" = none ∧ normalize_time "" = none ∧ normalize_time " ? " = none
  ∧ normalize_time "1600" = some "16:00"
  ∧ normalize_time "400" = some "04:00"
  ∧ normalize_time "9999" = some "99:99"
  ∧ normalize_time "4:00 PM" = some "16:00"
  ∧ normalize_time "04:00" = some "04:00"
  ∧ normalize_time "14:30" = some "14:30"
  ∧ normalize_time "garbage" = none
  ∧ (∀ a b c d : Fin 10,
      normalize_time (String.mk
          [Nat.digitChar a.val, Nat.digitChar b.val, Nat.digitChar c.val, Nat.digitChar d.val])
        = some (String.mk
          [Nat.digitChar a.val, Nat.digitChar b.val, ':', Nat.digitChar c.val, Nat.digitChar d.val]))
  ∧ (∀ a b c : Fin 10,
      normalize_time (String.mk [Nat.digitChar a.val, Nat.digitChar b.val, Nat.digitChar c.val])
        = some (String.mk ['0', Nat.digitChar a.val, ':', Nat.digitChar b.val, Nat.digitChar c.val])) := by
  refine ⟨by rfl, by rfl, by rfl, by rfl, by rfl, by rfl, by rfl, by rfl, by rfl, by rfl, ?_, ?_⟩
  · intro a b c d
    exact normalize_time_four _ _ _ _
      (digitChar_isDigit a) (digitChar_isDigit b) (digitChar_isDigit c) (digitChar_isDigit d)
      (digitChar_not_ws a) (digitChar_not_ws d)
      (digitChar_upper a) (digitChar_upper b) (digitChar_upper c) (digitChar_upper d)
  · intro a b c
    exact normalize_time_three _ _ _
      (digitChar_isDigit a) (digitChar_isDigit b) (digitChar_isDigit c)
      (digitChar_not_ws a) (digitChar_not_ws c)
      (digitChar_upper a) (digitChar_upper b) (digitChar_upper c)

/-- Does this `Except` hold a value (no exception)? -/
def isOkE {ε α : Type} : Except ε α → Bool
  | Except.ok _ => true
  | Except.error _ => false

/-- A captured `[\d?]+` group that Python `int` accepts or that is the
literal `"?"`: exactly the groups that do *not* raise `ValueError`. -/
def benignRun : Option (List Char) → Bool
  | Option.none => true
  | some ds => ds = ['?'] ∨ ds.all Char.isDigit

theorem fieldValue_isOk (o : Option (List Char)) (h : benignRun o = true) :
    isOkE (fieldValue o) = true := by
  rcases o with - | ds
  · rfl
  · rcases (by simpa [benignRun] using h : ds = ['?'] ∨ ds.all Char.isDigit = true) with h' | h'
    · simp [fieldValue, groupValue, h', isOkE]
    · by_cases hq : ds = ['?']
      · simp [fieldValue, groupValue, hq, isOkE]
      · simp [fieldValue, groupValue, hq, h', isOkE]

/-- Claim C3 counterexample. The claim says no exception ever propagates out of
the normalizer, but on the count text `"4 (passengers:?? crew:2)"` the code
reaches `int("??")`, which raises an uncaught `ValueError`
(`parse_passengers_crew` has no exception handler). -/
theorem claim_C3_cex :
    parse_passengers_crew "4 (passengers:?? crew:2)" = Except.error "ValueError" ∧
    parse_passengers_crew "4 (passengers:1? crew:2)" = Except.error "ValueError" := by
  exact ⟨by rfl, by rfl⟩

/-- Claim C3, amended. Time normalization never raises (it is total, every
unparseable input degrading to null), and count parsing degrades to null for
absent markers and unparseable shapes — *except* that when a
`passengers:`/`crew:` marker is followed by a digit-or-`?` run that is
neither all digits nor exactly `?` (e.g. `??` or `1?`), a `ValueError`
escapes the normalizer. -/
theorem claim_C3_amended :
    parse_passengers_crew "garbage" = Except.ok (none, none, none)
  ∧ normalize_time "garbage" = none
  ∧ normalize_time "12 noon" = none
  ∧ (∀ t, benignRun (searchRun "passengers:".data t.data) = true →
          benignRun (searchRun "crew:".data t.data) = true →
          isOkE (parse_passengers_crew t) = true) := by
  refine ⟨by rfl, by rfl, by rfl, ?_⟩
  intro t h1 h2
  have o1 := fieldValue_isOk _ h1
  have o2 := fieldValue_isOk _ h2
  unfold parse_passengers_crew
  rcases hv1 : fieldValue (searchRun "passengers:".data t.data) with e1 | v1 <;>
    rcases hv2 : fieldValue (searchRun "crew:".data t.data) with e2 | v2 <;>
    rw [hv1] at o1 <;> rw [hv2] at o2 <;> simp [isOkE] at o1 o2 ⊢

/-- Claim C3 witness: the no-exception conjunct applied to a text whose two
captured groups are benign. -/
theorem claim_C3_witness :
    isOkE (parse_passengers_crew "5 (passengers:3 crew:?)") = true := by
  exact claim_C3_amended.2.2.2 "5 (passengers:3 crew:?)" (by rfl) (by rfl)

theorem lookupCache_append_self (c : List (String × (Option Int × Option Int)))
    (k : String) (v : Option Int × Option Int) (h : lookupCache c k = none) :
    lookupCache (c ++ [(k, v)]) k = some v := by
  induction c with
  | nil => simp [lookupCache]
  | cons e rest ih =>
    rcases e with ⟨k', v'⟩
    by_cases hk : k' = k
    · simp [lookupCache, hk] at h
    · simp only [lookupCache, hk, if_neg, List.cons_append] at h ⊢
      exact ih h

theorem lookupCache_append_of_isSome (c₁ c₂ : List (String × (Option Int × Option Int)))
    (k : String) (h : (lookupCache c₁ k).isSome = true) :
    lookupCache (c₁ ++ c₂) k = lookupCache c₁ k := by
  induction c₁ with
  | nil => simp [lookupCache] at h
  | cons e rest ih =>
    rcases e with ⟨k', v'⟩
    by_cases hk : k' = k
    · simp [lookupCache, hk]
    · simp only [lookupCache, hk, if_neg, List.cons_append] at h ⊢
      exact ih h

/-- Claim C6 counterexample. The claim says strings without a directional
prefix pass through cleaning unchanged, but `clean_location` also strips
surrounding whitespace: `"Chicago "` carries no `Near`/`Off`/`Over` prefix
(the regex substitution leaves it untouched), yet it is cleaned to
`"Chicago"`, not passed through unchanged. -/
theorem claim_C6_cex :
    subDirPfx "Chicago ".data = "Chicago ".data
  ∧ clean_location "Chicago " = "Chicago"
  ∧ ¬ clean_location "Chicago " = "Chicago " := by
  exact ⟨by rfl, by rfl, by decide⟩

/-- Claim C6, amended. The external geocoding query is built from the raw
string with one leading `Near`/`Off`/`Over` prefix (case-insensitive,
followed by whitespace) removed *and the result trimmed of surrounding
whitespace* (strings without such a prefix pass through modulo that trim);
the cache entry is keyed by the original, unstripped string, so `Near X`
and `X` are cached and looked up separately. -/
theorem claim_C6_amended :
    clean_location "Near Chicago" = "Chicago"
  ∧ clean_location "Off Coast" = "Coast"
  ∧ clean_location "NEAR CHICAGO" = "CHICAGO"
  ∧ clean_location "near  Chicago" = "Chicago"
  ∧ clean_location "Chicago" = "Chicago"
  ∧ clean_location "Nearest place" = "Nearest place"
  ∧ clean_location "Chicago " = "Chicago"
  ∧ (∀ g loc st, loc ≠ "" → lookupCache st.cache loc = none →
      (geocode_location g loc st).2.calls = st.calls ++ [(loc, clean_location loc)]
      ∧ lookupCache (geocode_location g loc st).2.cache loc
          = some (geocode_location g loc st).1)
  ∧ (∀ g, lookupCache (geocode_location g "Near Chicago" ⟨[], []⟩).2.cache "Chicago"
      = none) := by
  refine ⟨by rfl, by rfl, by rfl, by rfl, by rfl, by rfl, by rfl, ?_, ?_⟩
  · intro g loc st hne hmiss
    rcases hg : g (clean_location loc) with ⟨a, o⟩ | - | - <;>
      refine ⟨?_, ?_⟩ <;>
      simp only [geocode_location, if_neg hne, hmiss, hg] <;>
      first
      | rfl
      | exact lookupCache_append_self _ _ _ hmiss
  · intro g
    rcases hg : g (clean_location "Near Chicago") with ⟨a, o⟩ | - | - <;>
      simp [geocode_location, lookupCache, hg]

/-- Claim C6 witness: the geocode conjuncts applied at `"Near Paris"` with an
empty cache and an always-empty geocoding oracle. -/
theorem claim_C6_witness :
    (geocode_location (fun _ => GeoRes.empty) "Near Paris" ⟨[], []⟩).2.calls
      = [] ++ [("Near Paris", clean_location "Near Paris")] := by
  exact (claim_C6_amended.2.2.2.2.2.2.2.1 (fun _ => GeoRes.empty) "Near Paris" ⟨[], []⟩
    (by decide) (by rfl)).1

/-- Claim C10. Any accumulated record that has no `Location` key, or whose
`Location` value is null or the empty string, is left entirely unchanged by
the geocoding pass: no `Latitude` or `Longitude` key is added, and no
external geocoding request is made (the geocoder state — cache and request
trace — is returned untouched). -/
theorem claim_C10 (g : String → GeoRes) (d : Dict) (st : GeoSt)
    (h : dictGet d "Location" = Option.none ∨ dictGet d "Location" = some Val.none ∨
         dictGet d "Location" = some (Val.str "")) :
    enrichRecord g d st = (d, st) := by
  rcases h with h | h | h <;> simp [enrichRecord, h]

/-- Claim C10 witness: a record with no `Location` key is untouched. -/
theorem claim_C10_witness :
    enrichRecord (fun _ => GeoRes.fail) [("Date", Val.str "x")] ⟨[], []⟩
      = ([("Date", Val.str "x")], ⟨[], []⟩) := by
  exact claim_C10 (fun _ => GeoRes.fail) [("Date", Val.str "x")] ⟨[], []⟩ (Or.inl (by decide))

/-- Claim C5. For every year, if the first page fetch returns a non-200 status
or the fetched page contains no table matching the structural signature,
that year contributes zero records, page 2 of that year is never requested
(the trace holds exactly one fetch event for the year), and the year loop
advances to the next year; both conditions end the year identically and are
not treated as errors (no crash). -/
theorem claim_C5 (f : Nat → Nat → FetchRes) (y fuel : Nat) (ys : List Nat)
    (h : f y 1 = FetchRes.non200 ∨ f y 1 = FetchRes.okNoTable) :
    scrapeYearLoop f y (fuel + 1) 1 = ⟨[], [Ev.fetch y 1 false], false⟩
    ∧ scrapeYears f (fuel + 1) (y :: ys) =
        ⟨(scrapeYears f (fuel + 1) ys).records,
         Ev.fetch y 1 false :: (scrapeYears f (fuel + 1) ys).trace,
         (scrapeYears f (fuel + 1) ys).crashed⟩ := by
  have h1 : scrapeYearLoop f y (fuel + 1) 1 = ⟨[], [Ev.fetch y 1 false], false⟩ := by
    rcases h with h | h <;> simp [scrapeYearLoop, h]
  refine ⟨h1, ?_⟩
  simp [scrapeYears, h1]

/-- Claim C5 witness: a year whose first page is non-200, ahead of a year list
with one further year. -/
theorem claim_C5_witness :
    scrapeYearLoop (fun _ _ => FetchRes.non200) 2000 1 1
      = ⟨[], [Ev.fetch 2000 1 false], false⟩ := by
  exact (claim_C5 (fun _ _ => FetchRes.non200) 2000 0 [2001] (Or.inl rfl)).1

/-- Written from the spec's wording, for comparison with the code's
`rowLabel`: trim only a *trailing* colon from the first cell's text. -/
def specTrailingColonTrim (s : String) : String :=
  match s.data.getLast? with
  | some ':' => String.mk s.data.dropLast
  | _ => s

/-- Claim C8 counterexample. The claim says the emitted label is the first
cell's text trimmed only of a trailing colon.  The code instead removes
*every* colon (`.replace(":", "")`): on the cell text `":Time:"` the claimed
label would be `":Time"`, which is outside the Field Set, so the row would
be dropped — but the code computes label `"Time"` and keeps the row. -/
theorem claim_C8_cex :
    rowLabel ":Time:" = "Time"
  ∧ specTrailingColonTrim ":Time:" = ":Time"
  ∧ (":Time" ∈ FIELDS → False)
  ∧ processRow [] [":Time:", "0930"] = Except.ok [("Time", Val.str "09:30")] := by
  exact ⟨by rfl, by rfl, by decide, by rfl⟩

/-- Claim C8, amended. Row extraction keeps only table rows with exactly two
cells and emits, for each kept row, a (label, value) pair whose label is the
first cell's text with *all* colon characters removed (not just a trailing
one) and whose value is the second cell's text with surrounding whitespace
trimmed; any pair whose label is outside the Field Set is silently
dropped. -/
theorem claim_C8_amended :
    (∀ d row, row.length ≠ 2 → processRow d row = Except.ok d)
  ∧ (∀ d c0 c1, rowLabel c0 ∉ FIELDS → processRow d [c0, c1] = Except.ok d)
  ∧ (∀ d c0 c1, rowLabel c0 ∈ FIELDS →
      rowLabel c0 ≠ "Time" → rowLabel c0 ≠ "Aboard" → rowLabel c0 ≠ "Fatalities" →
      pyStripS c1 ≠ "?" →
      processRow d [c0, c1] = Except.ok (dictSet d (rowLabel c0) (Val.str (pyStripS c1))))
  ∧ processRow [] [" Operator: ", " Acme Air "] = Except.ok [("Operator", Val.str "Acme Air")] := by
  refine ⟨?_, ?_, ?_, by rfl⟩
  · intro d row hlen
    rcases row with - | ⟨a, - | ⟨b, - | ⟨c, t⟩⟩⟩
    · rfl
    · rfl
    · simp at hlen
    · rfl
  · intro d c0 c1 hout
    simp [processRow, hout]
  · intro d c0 c1 hin ht ha hf hq
    simp [processRow, hin, ht, ha, hf, hq]

/-- Claim C8 witness: the generic-field conjunct applied at a `Route` row. -/
theorem claim_C8_witness :
    processRow [] ["Route:", "A - B"]
      = Except.ok (dictSet [] (rowLabel "Route:") (Val.str (pyStripS "A - B"))) := by
  exact claim_C8_amended.2.2.1 [] "Route:" "A - B"
    (by decide) (by decide) (by decide) (by decide) (by decide)

/-- Invariant of the geocoder state: no raw string has triggered two
external requests, and every raw string that triggered one is cached. -/
def GeoInv (st : GeoSt) : Prop :=
  (st.calls.map Prod.fst).Nodup ∧
  ∀ l ∈ st.calls.map Prod.fst, (lookupCache st.cache l).isSome = true

theorem geocode_preserves_inv (g : String → GeoRes) (l : String) (st : GeoSt)
    (h : GeoInv st) : GeoInv (geocode_location g l st).2 := by
  by_cases he : l = ""
  · simpa [geocode_location, he] using h
  · rcases hc : lookupCache st.cache l with - | p
    · have hnotin : l ∉ st.calls.map Prod.fst := by
        intro hin
        have := h.2 l hin
        rw [hc] at this
        simp at this
      have step : ∀ p : Option Int × Option Int,
          GeoInv ⟨st.cache ++ [(l, p)], st.calls ++ [(l, clean_location l)]⟩ := by
        intro p
        constructor
        · simpa [List.nodup_append, hnotin] using h.1
        · intro x hx
          simp only [List.map_append, List.map_cons, List.map_nil, List.mem_append,
            List.mem_singleton] at hx
          rcases hx with hx | rfl
          · rw [lookupCache_append_of_isSome _ _ _ (h.2 x hx)]
            exact h.2 x hx
          · rw [lookupCache_append_self _ _ _ hc]
            rfl
      rcases hg : g (clean_location l) with ⟨a, o⟩ | - | - <;>
        simp only [geocode_location, if_neg he, hc, hg] <;> exact step _
    · simpa [geocode_location, he, hc] using h

theorem enrichRecord_preserves_inv (g : String → GeoRes) (d : Dict) (st : GeoSt)
    (h : GeoInv st) : GeoInv (enrichRecord g d st).2 := by
  rcases hL : dictGet d "Location" with - | v
  · simpa [enrichRecord, hL] using h
  · rcases v with - | s | n | c
    · simpa [enrichRecord, hL] using h
    · by_cases hs : s = ""
      · simpa [enrichRecord, hL, hs] using h
      · have := geocode_preserves_inv g s st h
        simpa [enrichRecord, hL, hs] using this
    · simpa [enrichRecord, hL] using h
    · simpa [enrichRecord, hL] using h

theorem enrichAll_preserves_inv (g : String → GeoRes) :
    ∀ (ds : List Dict) (st : GeoSt), GeoInv st → GeoInv (enrichAll g ds st).2 := by
  intro ds
  induction ds with
  | nil => intro st h; exact h
  | cons d rest ih =>
    intro st h
    exact ih _ (enrichRecord_preserves_inv g d st h)

/-- Claim C4. During one run, at most one external geocoding request is made
per distinct raw location string: over the whole geocoding pass the request
trace contains any raw string at most once; the cache is consulted before
every external call (a cached string returns its cached pair with no state
change, hence no new request — so a failed lookup is never retried); and
every outcome of an uncached call is stored in the cache under the raw
string, a failed lookup as the pair (null, null). -/
theorem claim_C4 (g : String → GeoRes) (ds : List Dict) (l : String) :
    ((enrichAll g ds ⟨[], []⟩).2.calls.map Prod.fst).count l ≤ 1
  ∧ (∀ st p, l ≠ "" → lookupCache st.cache l = some p →
      geocode_location g l st = (p, st))
  ∧ (∀ st, l ≠ "" → lookupCache st.cache l = none →
      lookupCache (geocode_location g l st).2.cache l = some (geocode_location g l st).1
      ∧ (geocode_location g l st).2.calls = st.calls ++ [(l, clean_location l)]
      ∧ (g (clean_location l) = GeoRes.fail → (geocode_location g l st).1 = (none, none))) := by
  refine ⟨?_, ?_, ?_⟩
  · have hinv : GeoInv (⟨[], []⟩ : GeoSt) := ⟨List.nodup_nil, by simp⟩
    have h := (enrichAll_preserves_inv g ds ⟨[], []⟩ hinv).1
    exact List.nodup_iff_count_le_one.mp h l
  · intro st p hne hhit
    simp [geocode_location, hne, hhit]
  · intro st hne hmiss
    rcases hg : g (clean_location l) with ⟨a, o⟩ | - | - <;>
      refine ⟨?_, ?_, ?_⟩ <;>
      simp only [geocode_location, if_neg hne, hmiss, hg] <;>
      first
      | rfl
      | exact lookupCache_append_self _ _ _ hmiss
      | intro hcon
    all_goals simp_all

/-- Claim C4 witness: a cached raw string returns the cached pair with no new
request, and an uncached failing string is cached as (null, null) under the
raw key. -/
theorem claim_C4_witness :
    geocode_location (fun _ => GeoRes.fail) "Paris" ⟨[("Paris", (none, none))], []⟩
      = ((none, none), ⟨[("Paris", (none, none))], []⟩) := by
  exact (claim_C4 (fun _ => GeoRes.fail) [] "Paris").2.1
    ⟨[("Paris", (none, none))], []⟩ (none, none) (by decide) (by rfl)

/-- Shape of the event trace the fetch phase can produce, indexed by whether
it ends in an uncaught exception: a failed fetch is followed directly by the
next fetch (no sleep), a fetch that yielded a table is followed by
`sleep DELAY` — unless the page's rows raised, in which case that fetch is
the final event. -/
inductive GoodTr : List Ev → Bool → Prop where
  | nil : GoodTr [] false
  | crash (y p : Nat) : GoodTr [Ev.fetch y p true] true
  | fail (y p : Nat) {tr : List Ev} {c : Bool} (h : GoodTr tr c) :
      GoodTr (Ev.fetch y p false :: tr) c
  | ok (y p : Nat) {tr : List Ev} {c : Bool} (h : GoodTr tr c) :
      GoodTr (Ev.fetch y p true :: Ev.sleep DELAY :: tr) c

theorem goodTr_append_aux {a : List Ev} {ca : Bool} (ha : GoodTr a ca) :
    ∀ {b : List Ev} {cb : Bool}, ca = false → GoodTr b cb → GoodTr (a ++ b) cb := by
  induction ha with
  | nil => intro b cb _ hb; simpa using hb
  | crash y p => intro b cb hc; cases hc
  | fail y p h ih => intro b cb hc hb; exact GoodTr.fail y p (ih hc hb)
  | ok y p h ih => intro b cb hc hb; exact GoodTr.ok y p (ih hc hb)

theorem scrapeYearLoop_goodTr (f : Nat → Nat → FetchRes) (y : Nat) :
    ∀ fuel page, GoodTr (scrapeYearLoop f y fuel page).trace
      (scrapeYearLoop f y fuel page).crashed := by
  intro fuel
  induction fuel with
  | zero => intro page; exact GoodTr.nil
  | succ n ih =>
    intro page
    rcases hf : f y page with - | - | rows
    · simp only [scrapeYearLoop, hf]; exact GoodTr.fail y page GoodTr.nil
    · simp only [scrapeYearLoop, hf]; exact GoodTr.fail y page GoodTr.nil
    · rcases hp : processPage rows with e | d
      · simp only [scrapeYearLoop, hf, hp]; exact GoodTr.crash y page
      · simp only [scrapeYearLoop, hf, hp]; exact GoodTr.ok y page (ih (page + 1))

theorem scrapeYears_goodTr (f : Nat → Nat → FetchRes) (fuel : Nat) :
    ∀ ys : List Nat, GoodTr (scrapeYears f fuel ys).trace (scrapeYears f fuel ys).crashed := by
  intro ys
  induction ys with
  | nil => exact GoodTr.nil
  | cons y rest ih =>
    rcases hc : (scrapeYearLoop f y fuel 1).crashed with - | -
    · have ha := scrapeYearLoop_goodTr f y fuel 1
      rw [hc] at ha
      simpa [scrapeYears, hc] using goodTr_append_aux ha rfl ih
    · have ha := scrapeYearLoop_goodTr f y fuel 1
      simpa [scrapeYears, hc] using ha

theorem goodTr_sleep_after_ok {tr : List Ev} {c : Bool} (h : GoodTr tr c) :
    ∀ i y p e, tr.get? i = some (Ev.fetch y p true) → tr.get? (i + 1) = some e →
      e = Ev.sleep DELAY := by
  induction h with
  | nil => intro i y p e h1 h2; simp at h1
  | crash y0 p0 =>
    intro i y p e h1 h2
    rcases i with - | j
    · simp at h2
    · simp at h1
  | fail y0 p0 h ih =>
    intro i y p e h1 h2
    rcases i with - | j
    · simp at h1
    · exact ih j y p e (by simpa using h1) (by simpa using h2)
  | ok y0 p0 h ih =>
    intro i y p e h1 h2
    rcases i with - | ⟨- | k⟩
    · simp at h2
      exact h2.symm
    · simp at h1
    · exact ih k y p e (by simpa using h1) (by simpa using h2)

theorem goodTr_no_sleep_after_fail {tr : List Ev} {c : Bool} (h : GoodTr tr c) :
    ∀ i y p d2, tr.get? i = some (Ev.fetch y p false) →
      tr.get? (i + 1) = some (Ev.sleep d2) → False := by
  induction h with
  | nil => intro i y p d2 h1 h2; simp at h1
  | crash y0 p0 =>
    intro i y p d2 h1 h2
    rcases i with - | j
    · simp at h1
    · simp at h1
  | fail y0 p0 h ih =>
    intro i y p d2 h1 h2
    rcases i with - | j
    · -- the next event, if any, is the head of the tail trace, which by the
      -- shape of `GoodTr` is a fetch, never a sleep
      revert h2
      rcases h with - | - | - | - <;> intro h2 <;> simp at h2
    · exact ih j y p d2 (by simpa using h1) (by simpa using h2)
  | ok y0 p0 h ih =>
    intro i y p d2 h1 h2
    rcases i with - | ⟨- | k⟩
    · simp at h1
    · simp at h1
    · exact ih k y p d2 (by simpa using h1) (by simpa using h2)

/-- Claim C7 counterexample. The claim says a DELAY sleep separates every pair
of consecutive page fetches regardless of the earlier fetch's outcome.  In a
run where every fetch returns non-200, the trace opens with the fetches for
2000 and 2001 adjacent to each other and contains no sleep at all: the
`break` on a failed fetch skips `time.sleep(DELAY)`, so consecutive fetches
are not separated by any delay. -/
theorem claim_C7_cex :
    (scrapeYears (fun _ _ => FetchRes.non200) 1 YEARS).trace.get? 0
        = some (Ev.fetch 2000 1 false)
  ∧ (scrapeYears (fun _ _ => FetchRes.non200) 1 YEARS).trace.get? 1
        = some (Ev.fetch 2001 1 false)
  ∧ (scrapeYears (fun _ _ => FetchRes.non200) 1 YEARS).trace.count (Ev.sleep DELAY) = 0 := by
  exact ⟨by rfl, by rfl, by rfl⟩

/-- Claim C7, amended. In every run's request trace, a `sleep DELAY` follows
every fetch that returned a 200 page with the crash table (whenever any
event follows it at all), but a fetch that returned non-200 or a tableless
page ends its year and is never followed by a sleep: the next fetch, if any,
comes with no intervening delay. -/
theorem claim_C7_amended (f : Nat → Nat → FetchRes) (fuel : Nat) (ys : List Nat) :
    (∀ i y p e, (scrapeYears f fuel ys).trace.get? i = some (Ev.fetch y p true) →
      (scrapeYears f fuel ys).trace.get? (i + 1) = some e → e = Ev.sleep DELAY)
  ∧ (∀ i y p d2, (scrapeYears f fuel ys).trace.get? i = some (Ev.fetch y p false) →
      (scrapeYears f fuel ys).trace.get? (i + 1) = some (Ev.sleep d2) → False) := by
  exact ⟨goodTr_sleep_after_ok (scrapeYears_goodTr f fuel ys),
         goodTr_no_sleep_after_fail (scrapeYears_goodTr f fuel ys)⟩

/-- Claim C7 witness: in a two-page run (page 1 has a table, page 2 is
non-200), the event right after the successful first fetch is the sleep. -/
theorem claim_C7_witness :
    (Ev.sleep 1 : Ev) = Ev.sleep DELAY := by
  exact (claim_C7_amended (fun _ p => if p = 1 then FetchRes.okTable [["Date:", "x"]] else FetchRes.non200)
      2 [2000]).1 0 2000 1 (Ev.sleep 1) (by rfl) (by rfl)

theorem dictGet_dictSet (d : Dict) (k : String) (v : Val) (k' : String) :
    dictGet (dictSet d k v) k' = if k = k' then some v else dictGet d k' := by
  induction d with
  | nil =>
    by_cases hk : k = k' <;> simp [dictGet, dictSet, hk]
  | cons e rest ih =>
    rcases e with ⟨k0, v0⟩
    by_cases h0 : k0 = k
    · subst h0
      by_cases hk : k0 = k' <;> simp [dictGet, dictSet, hk]
    · by_cases hk : k0 = k'
      · subst hk
        have hne : ¬ k = k0 := fun he => h0 he.symm
        simp [dictGet, dictSet, h0, hne]
      · simp [dictGet, dictSet, h0, hk, ih]

/-- The geocoding pass touches nothing but `Latitude` and `Longitude`. -/
theorem enrichRecord_frame (g : String → GeoRes) (d : Dict) (st : GeoSt)
    (k : String) (h1 : k ≠ "Latitude") (h2 : k ≠ "Longitude") :
    dictGet (enrichRecord g d st).1 k = dictGet d k := by
  rcases hL : dictGet d "Location" with - | v
  · simp [enrichRecord, hL]
  · rcases v with - | s | n | c
    · simp [enrichRecord, hL]
    · by_cases hs : s = ""
      · simp [enrichRecord, hL, hs]
      · simp [enrichRecord, hL, if_neg hs, dictGet_dictSet, Ne.symm h1, Ne.symm h2]
    · simp [enrichRecord, hL]
    · simp [enrichRecord, hL]

def fC9 : Nat → Nat → FetchRes := fun y p =>
  if y = 2000 ∧ p = 1 then FetchRes.okTable [["Location:", "Chicago"]] else FetchRes.non200

def gC9 : String → GeoRes := fun _ => GeoRes.found 1 2

/-- Claim C9 counterexample. The claim says a record appended to the output
collection is never changed afterwards.  In a run that scrapes one record
with a location, the record as appended by the fetch phase has no
`Latitude` key, yet the same (in Python: identical, mutated-in-place)
record at CSV-writing time has one: the geocoding pass mutates records
*after* they were appended. -/
theorem claim_C9_cex :
    (runScrape fC9 gC9 2).fetched.map (fun d => dictGet d "Latitude") = [Option.none]
  ∧ (runScrape fC9 gC9 2).final.map (fun ds => ds.map (fun d => dictGet d "Latitude"))
      = some [some (Val.coord (some 1))] := by
  exact ⟨by rfl, by rfl⟩

/-- Claim C9, amended. After a record is appended to the output collection it
is changed exactly once more, by the geocoding pass, and that pass changes
nothing but the `Latitude` and `Longitude` fields: every other field of
every accumulated record is the same at CSV-writing time as it was at
append time (records with a nonempty string `Location` get those two keys
set from the geocoder's answer). -/
theorem claim_C9_amended (g : String → GeoRes) (ds : List Dict) (st : GeoSt) :
    List.Forall₂
      (fun d d2 => ∀ k, k ≠ "Latitude" → k ≠ "Longitude" → dictGet d2 k = dictGet d k)
      ds (enrichAll g ds st).1
  ∧ (∀ d st2 s, dictGet d "Location" = some (Val.str s) → s ≠ "" →
      dictGet (enrichRecord g d st2).1 "Latitude"
        = some (Val.coord (geocode_location g s st2).1.1)
      ∧ dictGet (enrichRecord g d st2).1 "Longitude"
        = some (Val.coord (geocode_location g s st2).1.2)) := by
  constructor
  · induction ds generalizing st with
    | nil => exact List.Forall₂.nil
    | cons d rest ih =>
      exact List.Forall₂.cons (fun k h1 h2 => enrichRecord_frame g d st k h1 h2) (ih _)
  · intro d st2 s hL hs
    constructor
    · simp [enrichRecord, hL, if_neg hs, dictGet_dictSet]
    · simp [enrichRecord, hL, if_neg hs, dictGet_dictSet]

/-- Claim C9 witness: the frame part applied to a one-record run (the `Date`
field survives the geocoding pass unchanged) and the positive part applied
to the same record (`Latitude` is set). -/
theorem claim_C9_witness :
    dictGet (enrichRecord (fun _ => GeoRes.fail)
        [("Date", Val.str "x"), ("Location", Val.str "Y")] ⟨[], []⟩).1 "Date"
      = dictGet [("Date", Val.str "x"), ("Location", Val.str "Y")] "Date"
  ∧ dictGet (enrichRecord (fun _ => GeoRes.fail)
        [("Date", Val.str "x"), ("Location", Val.str "Y")] ⟨[], []⟩).1 "Latitude"
      = some (Val.coord (geocode_location (fun _ => GeoRes.fail) "Y" ⟨[], []⟩).1.1) := by
  constructor
  · have h := (claim_C9_amended (fun _ => GeoRes.fail)
      [[("Date", Val.str "x"), ("Location", Val.str "Y")]] ⟨[], []⟩).1
    rcases h with - | ⟨hd, -⟩
    exact hd "Date" (by decide) (by decide)
  · exact ((claim_C9_amended (fun _ => GeoRes.fail) [] ⟨[], []⟩).2
      [("Date", Val.str "x"), ("Location", Val.str "Y")] ⟨[], []⟩ "Y"
      (by rfl) (by decide)).1

/-- Claim C1 witness: the quantified conjuncts applied at the two worked
examples, discharging their hypotheses there. -/
theorem claim_C1_witness :
    (((some 8, none, none) : Option Nat × Option Nat × Option Nat)).2.1 = none ∧
    (((some 7, some 6, some 1) : Option Nat × Option Nat × Option Nat)).2.2
      = some (natOfDigits ['1']) := by
  constructor
  · exact claim_C1.2.2.2.2.2.1 "8 (passengers:? crew:?)" (some 8, none, none)
      (by rfl) (by rfl)
  · exact claim_C1.2.2.2.2.2.2.2.2.2 "7 (passengers:6 crew:1)" (some 7, some 6, some 1) ['1']
      (by rfl) (by rfl) (by rfl)

end Scraper
